import Mathlib

/-!
Shallow embedding of the route-group composition layer and the run/shutdown
lifecycle of the `hertz-study` repository, covering
`pkg/route/routergroup.go` and `pkg/app/server/hertz.go`.

Go panics are modelled as `Except String` values carrying the panic message.
Go slices of handlers are modelled as Lean lists; the engine's route table is
modelled as an explicit list of registrations threaded through the
registration functions.
-/

namespace HertzStudy

/-! ## Go standard-library `path` package

`routergroup.go` calls `path.Join` from the Go standard library (an external
collaborator of this repository).  `path.Join` joins its non-empty arguments
with `/` and then applies `path.Clean`, which applies the standard
path-segment canonicalisation: collapse multiple separators, eliminate `.`
segments, eliminate `..` together with the preceding non-`..` segment
(dropping `..` at the root of a rooted path), and never leave a trailing
separator except for the result "/"; the empty input yields ".".
The embedding below works on `List Char` with the usual segment-stack
formulation of this specification. -/

/-- Split a character list on `'/'`; like Go's `strings.Split(s, "/")`,
the result always has one more element than there are separators. -/
def splitSlash : List Char → List (List Char)
  | [] => [[]]
  | c :: rest =>
    let r := splitSlash rest
    if c = '/' then [] :: r
    else
      match r with
      | [] => [[c]]
      | seg :: segs => (c :: seg) :: segs

/-- Process path segments against a stack (held in reverse order):
empty and `.` segments are dropped, `..` pops a poppable segment
(at the root it is dropped when rooted and kept when relative), and any
other segment is pushed. -/
def cleanSegs (rooted : Bool) : List (List Char) → List (List Char) → List (List Char)
  | [], acc => acc.reverse
  | seg :: rest, acc =>
    if seg = [] ∨ seg = ['.'] then cleanSegs rooted rest acc
    else if seg = ['.', '.'] then
      match acc with
      | [] => if rooted then cleanSegs rooted rest [] else cleanSegs rooted rest [['.', '.']]
      | top :: accTl =>
        if top = ['.', '.'] then cleanSegs rooted rest (seg :: acc)
        else cleanSegs rooted rest accTl
    else cleanSegs rooted rest (seg :: acc)

/-- Go's `path.Clean` on a character list. -/
def goClean (p : List Char) : List Char :=
  match p with
  | [] => ['.']
  | c :: _ =>
    let rooted := c = '/'
    let segs := cleanSegs rooted (splitSlash p) []
    let body := List.intercalate ['/'] segs
    if rooted then
      if body = [] then ['/'] else '/' :: body
    else
      if body = [] then ['.'] else body

/-- Go's `path.Join` restricted to two elements: non-empty elements are
joined with `'/'` and the result is cleaned; two empty elements yield the
empty string. -/
def goJoin (a b : List Char) : List Char :=
  if a = [] ∧ b = [] then []
  else if a = [] then goClean b
  else goClean (a ++ '/' :: b)

/-- String-level wrapper for `goJoin`, matching the `path.Join` call sites of
`routergroup.go`. -/
def goJoinS (a b : String) : String :=
  String.mk (goJoin a.data b.data)

/-! ## `routergroup.go`: path composition helpers -/

/-- `lastChar` from `routergroup.go`.  The Go function panics on the empty
string; that defensive branch is modelled by returning `none`. -/
def lastChar (str : String) : Option Char :=
  str.data.getLast?

/-- `joinPaths` from `routergroup.go`: an empty relative path returns the
absolute path unchanged; otherwise `path.Join` is applied, and a trailing
slash is appended when the relative path ends in `'/'` but the joined path
does not. -/
def joinPaths (absolutePath relativePath : String) : String :=
  if relativePath = "" then absolutePath
  else
    let finalPath := goJoinS absolutePath relativePath
    if lastChar relativePath = some '/' ∧ lastChar finalPath ≠ some '/' then
      finalPath ++ "/"
    else
      finalPath

example : joinPaths "/" "/api" = "/api" := by decide
example : joinPaths "/api" "/users" = "/api/users" := by decide
example : joinPaths "/a" "b/" = "/a/b/" := by decide
example : joinPaths "/a" "" = "/a" := by decide
example : goJoinS "/s/" "/*filepath" = "/s/*filepath" := by decide
example : goClean "a/b/../../../c".data = "../c".data := by decide
example : goClean "/..".data = "/".data := by decide

/-! ## `routergroup.go`: data model

Handler values (`app.HandlerFunc`) are opaque to this layer.  The inductive
below distinguishes the three ways handlers arise at the call sites in
`routergroup.go`: user-supplied handlers/middleware, the file-serving closure
built by `StaticFile` over its `filepath` argument, and the handler obtained
from `fs.NewRequestHandler()` in `StaticFS` (determined by the `app.FS`
value, of which this layer uses only `Root`). -/

inductive Handler where
  | user : Nat → Handler
  | file : String → Handler
  | fsHandler : String → Handler
deriving DecidableEq, Repr

/-- `app.FS`.  Modelled from the spec: the static filesystem adapter is an
external collaborator described only by its root/virtual filesystem
description and its `NewRequestHandler` operation; `Static` constructs it
from a root directory string. -/
structure FS where
  Root : String
deriving DecidableEq, Repr

/-- `fs.NewRequestHandler()`.  Modelled from the spec: returns a handler
obtained from the external filesystem adapter, determined by the adapter. -/
def FS.NewRequestHandler (fs : FS) : Handler :=
  Handler.fsHandler fs.Root

/-- One entry of the engine's route table, as handed to
`engine.addRoute(httpMethod, absolutePath, handlers)`. -/
structure Registration where
  method : String
  path : String
  chain : List Handler
deriving DecidableEq, Repr

/-- The engine's route table, written only through `addRoute`, which appends
a registration. -/
abbrev RouteTable := List Registration

/-- `RouterGroup` from `routergroup.go`.  The `engine` pointer is modelled
by threading the engine's route table explicitly through the registration
functions; the engine's `AbortIndex` constant (from `pkg/route/consts`,
whose source is not part of the excerpt) is passed as an explicit `ab`
parameter. -/
structure RouterGroup where
  Handlers : List Handler
  basePath : String
  root : Bool
deriving DecidableEq, Repr

/-- `RouterGroup.Use`: appends middleware to the group's own handler chain
in place (modelled as returning the updated group value). -/
def RouterGroup.use (g : RouterGroup) (middleware : List Handler) : RouterGroup :=
  { g with Handlers := g.Handlers ++ middleware }

/-- `RouterGroup.combineHandlers`: panics with "too many handlers" when the
combined size reaches `AbortIndex` (`ab`); otherwise allocates a fresh
sequence holding the group's handlers followed by the new ones. -/
def RouterGroup.combineHandlers (ab : Nat) (g : RouterGroup) (handlers : List Handler) :
    Except String (List Handler) :=
  let finalSize := g.Handlers.length + handlers.length
  if finalSize ≥ ab then Except.error "too many handlers"
  else Except.ok (g.Handlers ++ handlers)

/-- `RouterGroup.calculateAbsolutePath`. -/
def RouterGroup.calculateAbsolutePath (g : RouterGroup) (relativePath : String) : String :=
  joinPaths g.basePath relativePath

/-- `RouterGroup.Group`: creates a child group with the combined handler
chain and the composed base path; the child's `root` field is the Go
zero value `false`. -/
def RouterGroup.group (ab : Nat) (g : RouterGroup) (relativePath : String)
    (handlers : List Handler) : Except String RouterGroup :=
  (g.combineHandlers ab handlers).map fun hs =>
    { Handlers := hs
      basePath := g.calculateAbsolutePath relativePath
      root := false }

/-- `RouterGroup.handle` (lowercase, internal): computes the absolute path,
combines the handlers, and calls `engine.addRoute`, which appends to the
route table. -/
def RouterGroup.handle (ab : Nat) (g : RouterGroup) (httpMethod relativePath : String)
    (handlers : List Handler) (routes : RouteTable) : Except String RouteTable :=
  let absolutePath := g.calculateAbsolutePath relativePath
  (g.combineHandlers ab handlers).map fun hs =>
    routes ++ [{ method := httpMethod, path := absolutePath, chain := hs }]

/-- `upperLetterReg.MatchString`: the regular expression `^[A-Z]+$` matches
exactly the non-empty strings all of whose characters are uppercase ASCII
letters. -/
def upperLetterMatch (s : String) : Bool :=
  !s.data.isEmpty && s.data.all fun c => 'A' ≤ c && c ≤ 'Z'

/-- `RouterGroup.Handle` (exported): panics when the method fails the
`^[A-Z]+$` validation, otherwise delegates to the internal `handle`. -/
def RouterGroup.Handle (ab : Nat) (g : RouterGroup) (httpMethod relativePath : String)
    (handlers : List Handler) (routes : RouteTable) : Except String RouteTable :=
  if upperLetterMatch httpMethod then g.handle ab httpMethod relativePath handlers routes
  else Except.error ("http method " ++ httpMethod ++ " is not valid")

/-- `RouterGroup.GET`, a shortcut for `handle` with `consts.MethodGet`. -/
def RouterGroup.GET (ab : Nat) (g : RouterGroup) (relativePath : String)
    (handlers : List Handler) (routes : RouteTable) : Except String RouteTable :=
  g.handle ab "GET" relativePath handlers routes

/-- `RouterGroup.HEAD`, a shortcut for `handle` with `consts.MethodHead`. -/
def RouterGroup.HEAD (ab : Nat) (g : RouterGroup) (relativePath : String)
    (handlers : List Handler) (routes : RouteTable) : Except String RouteTable :=
  g.handle ab "HEAD" relativePath handlers routes

/-- The nine method tokens registered by `RouterGroup.Any`, in source
order. -/
def anyMethods : List String :=
  ["GET", "POST", "PUT", "PATCH", "HEAD", "OPTIONS", "DELETE", "CONNECT", "TRACE"]

/-- `RouterGroup.Any`: calls the internal `handle` once per method of
`anyMethods`, sequentially, all with the same relative path and handler
list. -/
def RouterGroup.any (ab : Nat) (g : RouterGroup) (relativePath : String)
    (handlers : List Handler) (routes : RouteTable) : Except String RouteTable := do
  let r ← g.handle ab "GET" relativePath handlers routes
  let r ← g.handle ab "POST" relativePath handlers r
  let r ← g.handle ab "PUT" relativePath handlers r
  let r ← g.handle ab "PATCH" relativePath handlers r
  let r ← g.handle ab "HEAD" relativePath handlers r
  let r ← g.handle ab "OPTIONS" relativePath handlers r
  let r ← g.handle ab "DELETE" relativePath handlers r
  let r ← g.handle ab "CONNECT" relativePath handlers r
  g.handle ab "TRACE" relativePath handlers r

/-- `RouterGroup.StaticFile`: panics when the relative path contains `:` or
`*`; otherwise registers GET and HEAD for the path with the file-serving
closure over `filepath`. -/
def RouterGroup.staticFile (ab : Nat) (g : RouterGroup) (relativePath filepath : String)
    (routes : RouteTable) : Except String RouteTable :=
  if relativePath.data.contains ':' ∨ relativePath.data.contains '*' then
    Except.error "URL parameters can not be used when serving a static file"
  else do
    let handler := Handler.file filepath
    let r ← g.GET ab relativePath [handler] routes
    g.HEAD ab relativePath [handler] r

/-- `RouterGroup.StaticFS`: panics when the relative path contains `:` or
`*`; otherwise mounts `path.Join(relativePath, "/*filepath")` for GET and
HEAD with the adapter's request handler. -/
def RouterGroup.staticFS (ab : Nat) (g : RouterGroup) (relativePath : String) (fs : FS)
    (routes : RouteTable) : Except String RouteTable :=
  if relativePath.data.contains ':' ∨ relativePath.data.contains '*' then
    Except.error "URL parameters can not be used when serving a static folder"
  else do
    let handler := fs.NewRequestHandler
    let urlPattern := goJoinS relativePath "/*filepath"
    let r ← g.GET ab urlPattern [handler] routes
    g.HEAD ab urlPattern [handler] r

/-- `RouterGroup.Static`: `StaticFS` with `&app.FS{Root: root}`. -/
def RouterGroup.static (ab : Nat) (g : RouterGroup) (relativePath root : String)
    (routes : RouteTable) : Except String RouteTable :=
  g.staticFS ab relativePath { Root := root } routes

deriving instance DecidableEq for Except

example :
    (RouterGroup.group 63 ⟨[Handler.user 0], "/", true⟩ "/api" [Handler.user 1]) =
      Except.ok ⟨[Handler.user 0, Handler.user 1], "/api", false⟩ := by decide

example :
    RouterGroup.GET 63 ⟨[Handler.user 0, Handler.user 1], "/api", false⟩
        "/users" [Handler.user 2] [] =
      Except.ok [⟨"GET", "/api/users", [Handler.user 0, Handler.user 1, Handler.user 2]⟩] := by
  decide

example :
    RouterGroup.staticFS 63 ⟨[], "/", true⟩ "/s/" ⟨"r"⟩ [] =
      Except.ok
        [⟨"GET", "/s/*filepath", [Handler.fsHandler "r"]⟩,
         ⟨"HEAD", "/s/*filepath", [Handler.fsHandler "r"]⟩] := by
  decide

/-! ## `hertz.go`: run/shutdown lifecycle

`Spin` races the accept loop's result (delivered on `errCh`, also fed by the
deferred registry-registration task) against the signal waiter.  Go `error`
values are modelled as `Option String` (`none` is the nil error).  The
`select` in `waitSignal` is modelled by an explicit winning event: either a
delivered signal or a value read from `errCh`. -/

inductive Sig where
  | sigint
  | sighup
  | sigterm
deriving DecidableEq, Repr

/-- `sig.String()` for the three signals, as on Linux. -/
def sigString : Sig → String
  | Sig.sigint => "interrupt"
  | Sig.sighup => "hangup"
  | Sig.sigterm => "terminated"

/-- The event that wins the `select` race inside `waitSignal`: a process
signal delivered on the notification channel, or the value read from the
run-error channel (which carries the accept loop's terminal result or a
registry-registration failure). -/
inductive RaceEvent where
  | signal : Sig → RaceEvent
  | runResult : Option String → RaceEvent
deriving DecidableEq, Repr

/-- The signal set passed to `signal.Notify` by `waitSignal`: SIGINT,
SIGHUP, SIGTERM; SIGHUP is dropped when the process already ignores it. -/
def signalToNotify (hupIgnored : Bool) : List Sig :=
  if hupIgnored then [Sig.sigint, Sig.sigterm]
  else [Sig.sigint, Sig.sighup, Sig.sigterm]

/-- A winning event is admissible when any signal it carries is in the
notified set; a signal outside the set is never delivered on the channel. -/
def admissibleEvent (hupIgnored : Bool) : RaceEvent → Bool
  | RaceEvent.signal s => (signalToNotify hupIgnored).contains s
  | RaceEvent.runResult _ => true

/-- `waitSignal` from `hertz.go`, as a function of the winning event:
SIGTERM returns the public error built from the signal's string (forced
exit); SIGHUP and SIGINT return nil (graceful); a value from `errCh` is
returned as-is. -/
def waitSignal : RaceEvent → Option String
  | RaceEvent.signal Sig.sigterm => some (sigString Sig.sigterm)
  | RaceEvent.signal Sig.sighup => none
  | RaceEvent.signal Sig.sigint => none
  | RaceEvent.runResult e => e

/-- Observable outcome of one `Spin` run: which shutdown path was taken,
the deadline of the cancellation scope handed to `Shutdown` on the graceful
path (`none` when no scope is created), and the errors logged from
`Shutdown` and `Engine.Close`. -/
structure SpinTrace where
  immediateClose : Bool
  gracefulDeadline : Option Nat
  loggedShutdownErr : Option String
  loggedCloseErr : Option String
deriving DecidableEq, Repr

/-- `Hertz.Spin` after the signal waiter returns: a non-nil error takes the
immediate path (`Engine.Close`, its error logged, no deadline scope); a nil
result takes the graceful path (`context.WithTimeout` with the configured
`ExitWaitTimeout`, then `Shutdown` with that scope, its error logged). -/
def spin (exitWaitTimeout : Nat) (waiterResult : Option String)
    (shutdownErr closeErr : Option String) : SpinTrace :=
  match waiterResult with
  | some _ => ⟨true, none, none, closeErr⟩
  | none => ⟨false, some exitWaitTimeout, shutdownErr, none⟩

example : spin 5 (waitSignal (RaceEvent.signal Sig.sigint)) (some "to") none =
    ⟨false, some 5, some "to", none⟩ := by decide
example : spin 5 (waitSignal (RaceEvent.signal Sig.sigterm)) none (some "ce") =
    ⟨true, none, none, some "ce"⟩ := by decide
example : spin 5 (waitSignal (RaceEvent.runResult (some "boom"))) none none =
    ⟨true, none, none, none⟩ := by decide
example : spin 5 (waitSignal (RaceEvent.runResult none)) none none =
    ⟨false, some 5, none, none⟩ := by decide

/-! ## Claim theorems -/

/-- C2: `joinPaths b r` returns `b` unchanged when `r` is empty; otherwise
it returns the canonical join `path.Join b r`, except that when `r` ends
with a separator and the canonical join does not, exactly one trailing
separator is appended (the result then ends in a separator whose
predecessor is not a separator). -/
theorem joinPaths_canonical_join (b r : String) :
    (r = "" → joinPaths b r = b) ∧
    (r ≠ "" →
      (lastChar r = some '/' ∧ lastChar (goJoinS b r) ≠ some '/' →
        joinPaths b r = goJoinS b r ++ "/" ∧
        lastChar (joinPaths b r) = some '/' ∧
        (joinPaths b r).data.dropLast.getLast? ≠ some '/') ∧
      (¬(lastChar r = some '/' ∧ lastChar (goJoinS b r) ≠ some '/') →
        joinPaths b r = goJoinS b r)) := by
  constructor
  · intro h
    simp [joinPaths, h]
  · intro hr
    constructor
    · intro hc
      have heq : joinPaths b r = goJoinS b r ++ "/" := by
        simp [joinPaths, hr, hc.1, hc.2]
      refine ⟨heq, ?_, ?_⟩
      · rw [heq]
        simp [lastChar, String.data_append]
      · rw [heq]
        have : (goJoinS b r ++ "/").data = (goJoinS b r).data ++ ['/'] := by
          simp [String.data_append]
        rw [this, List.dropLast_concat]
        exact hc.2
    · intro hc
      simp only [joinPaths, if_neg hr]
      rw [if_neg hc]

/-- Witness for C2 at `b = "/a"`, `r = "b/"`: the relative path ends in a
separator, the canonical join `"/a/b"` does not, and the result appends
exactly one. -/
theorem joinPaths_canonical_join_witness :
    joinPaths "/a" "b/" = goJoinS "/a" "b/" ++ "/" :=
  (((joinPaths_canonical_join "/a" "b/").2 (by decide)).1 (by decide)).1

/-- C3: `combineHandlers` panics with "too many handlers" exactly when the
combined length reaches `AbortIndex`; below the limit it returns the
existing handlers followed by the additional ones, of total length the sum
of the two lengths. -/
theorem combineHandlers_limit (ab : Nat) (g : RouterGroup) (hs : List Handler) :
    (g.combineHandlers ab hs = Except.error "too many handlers" ↔
      g.Handlers.length + hs.length ≥ ab) ∧
    (g.Handlers.length + hs.length < ab →
      g.combineHandlers ab hs = Except.ok (g.Handlers ++ hs) ∧
      (g.Handlers ++ hs).length = g.Handlers.length + hs.length) := by
  by_cases h : g.Handlers.length + hs.length ≥ ab
  · constructor
    · simp [RouterGroup.combineHandlers, h]
    · intro hlt
      omega
  · constructor
    · simp [RouterGroup.combineHandlers, h]
    · intro _
      exact ⟨by simp [RouterGroup.combineHandlers, h], by simp⟩

/-- Witness for C3: two handlers against the limit 63 combine
successfully. -/
theorem combineHandlers_limit_witness :
    RouterGroup.combineHandlers 63 ⟨[Handler.user 0], "/", true⟩ [Handler.user 1] =
      Except.ok [Handler.user 0, Handler.user 1] :=
  ((combineHandlers_limit 63 ⟨[Handler.user 0], "/", true⟩ [Handler.user 1]).2 (by decide)).1

/-- C9: the default signal waiter subscribes to exactly interrupt, hangup
and terminate; when the process ignores hangup it subscribes to exactly
interrupt and terminate. -/
theorem signalToNotify_exact (hupIgnored : Bool) (s : Sig) :
    (signalToNotify false = [Sig.sigint, Sig.sighup, Sig.sigterm] ∧
      signalToNotify true = [Sig.sigint, Sig.sigterm]) ∧
    (s ∈ signalToNotify hupIgnored ↔
      s = Sig.sigint ∨ s = Sig.sigterm ∨ (s = Sig.sighup ∧ hupIgnored = false)) := by
  refine ⟨by decide, ?_⟩
  cases hupIgnored <;> cases s <;> decide

/-- C10: when the run-error channel delivers a nil error (the accept loop
returned nil) before any signal, `waitSignal` returns nil and `Spin` takes
the graceful path, creating the exit-wait deadline scope and invoking
`Shutdown` with it. -/
theorem run_nil_takes_graceful (exitWait : Nat) (sErr cErr : Option String) :
    waitSignal (RaceEvent.runResult none) = none ∧
    spin exitWait (waitSignal (RaceEvent.runResult none)) sErr cErr =
      ⟨false, some exitWait, sErr, none⟩ :=
  ⟨rfl, rfl⟩

/-- C1: below the handler limit, `g.Group(p, m1).Group(q, m2)` produces a
child whose handler chain is `g.Handlers ++ m1 ++ m2` in that order and
whose base path is the composed path; the child is a freshly built value
(its chain is given by the equations below, which mention only the state of
`g` at creation time), so a later `Use` on `g` — which extends `g`'s own
chain — leaves it unchanged; and the end-to-end scenario: a root group at
"/" after `Use(authMW)`, via `Group("/api", loggingMW).GET("/users",
handler)`, registers GET at "/api/users" with chain
`[authMW, loggingMW, handler]`. -/
theorem group_group_chain (ab : Nat) (g : RouterGroup) (p q : String)
    (m1 m2 mLater : List Handler)
    (h : g.Handlers.length + (m1.length + m2.length) < ab) :
    (∃ c1 c2 : RouterGroup,
      g.group ab p m1 = Except.ok c1 ∧
      c1.group ab q m2 = Except.ok c2 ∧
      c1.Handlers = g.Handlers ++ m1 ∧
      c2.Handlers = g.Handlers ++ m1 ++ m2 ∧
      c2.basePath = joinPaths (joinPaths g.basePath p) q ∧
      (g.use mLater).Handlers = g.Handlers ++ mLater) ∧
    (∃ api : RouterGroup,
      (RouterGroup.use ⟨[], "/", true⟩ [Handler.user 0]).group 63 "/api"
          [Handler.user 1] = Except.ok api ∧
      api.GET 63 "/users" [Handler.user 2] [] =
        Except.ok
          [⟨"GET", "/api/users", [Handler.user 0, Handler.user 1, Handler.user 2]⟩]) := by
  have h1 : ¬(g.Handlers.length + m1.length ≥ ab) := by omega
  have h2 : ¬(g.Handlers.length + m1.length + m2.length ≥ ab) := by omega
  constructor
  · refine ⟨⟨g.Handlers ++ m1, joinPaths g.basePath p, false⟩,
      ⟨(g.Handlers ++ m1) ++ m2, joinPaths (joinPaths g.basePath p) q, false⟩,
      ?_, ?_, rfl, rfl, rfl, rfl⟩
    · simp [RouterGroup.group, RouterGroup.combineHandlers,
        RouterGroup.calculateAbsolutePath, Except.map, h1]
    · simp [RouterGroup.group, RouterGroup.combineHandlers,
        RouterGroup.calculateAbsolutePath, Except.map, h2]
  · exact ⟨⟨[Handler.user 0, Handler.user 1], "/api", false⟩, by decide, by decide⟩

/-- Witness for C1: concrete two-level grouping below the limit 63. -/
theorem group_group_chain_witness :
    ∃ c1 c2 : RouterGroup,
      RouterGroup.group 63 ⟨[Handler.user 9], "/", true⟩ "/a" [Handler.user 1] =
        Except.ok c1 ∧
      c1.group 63 "/b" [Handler.user 2] = Except.ok c2 ∧
      c1.Handlers = [Handler.user 9] ++ [Handler.user 1] ∧
      c2.Handlers = [Handler.user 9] ++ [Handler.user 1] ++ [Handler.user 2] ∧
      c2.basePath = joinPaths (joinPaths "/" "/a") "/b" ∧
      (RouterGroup.use ⟨[Handler.user 9], "/", true⟩ [Handler.user 3]).Handlers =
        [Handler.user 9] ++ [Handler.user 3] :=
  (group_group_chain 63 ⟨[Handler.user 9], "/", true⟩ "/a" "/b" [Handler.user 1]
    [Handler.user 2] [Handler.user 3] (by decide)).1

/-- C4: below the handler limit, `Any` performs exactly nine registrations,
one per method of the fixed, duplicate-free list GET, POST, PUT, PATCH,
HEAD, OPTIONS, DELETE, CONNECT, TRACE, issued sequentially in that order,
all at the same absolute path and all with the same merged chain. -/
theorem any_nine_registrations (ab : Nat) (g : RouterGroup) (rel : String)
    (hs : List Handler) (routes : RouteTable)
    (h : g.Handlers.length + hs.length < ab) :
    g.any ab rel hs routes =
      Except.ok (routes ++ anyMethods.map fun m =>
        ⟨m, g.calculateAbsolutePath rel, g.Handlers ++ hs⟩) ∧
    anyMethods.length = 9 ∧ anyMethods.Nodup := by
  have hnot : ¬(g.Handlers.length + hs.length ≥ ab) := by omega
  refine ⟨?_, by decide, by decide⟩
  simp [RouterGroup.any, RouterGroup.handle, RouterGroup.combineHandlers, hnot,
    anyMethods, bind, Except.bind, Except.map]

/-- Witness for C4: `Any` on a concrete group registers the nine methods. -/
theorem any_nine_registrations_witness :
    RouterGroup.any 63 ⟨[Handler.user 0], "/", true⟩ "/x" [Handler.user 1] [] =
      Except.ok (([] : RouteTable) ++ anyMethods.map fun m =>
        ⟨m, RouterGroup.calculateAbsolutePath ⟨[Handler.user 0], "/", true⟩ "/x",
          [Handler.user 0] ++ [Handler.user 1]⟩) :=
  (any_nine_registrations 63 ⟨[Handler.user 0], "/", true⟩ "/x" [Handler.user 1] []
    (by decide)).1

/-- C5: on an admissible winning event, an interrupt or hangup signal takes
the graceful path — `Shutdown` is invoked with a deadline scope carrying the
configured exit-wait timeout, whatever error `Shutdown` itself returns —
while a terminate signal or a non-nil run error skips graceful shutdown and
invokes the immediate close with no deadline scope. -/
theorem spin_race_decision (hupIgnored : Bool) (exitWait : Nat) (winner : RaceEvent)
    (sErr cErr : Option String)
    (hAdm : admissibleEvent hupIgnored winner = true) :
    ((winner = RaceEvent.signal Sig.sigint ∨ winner = RaceEvent.signal Sig.sighup) →
      spin exitWait (waitSignal winner) sErr cErr =
        ⟨false, some exitWait, sErr, none⟩) ∧
    ((winner = RaceEvent.signal Sig.sigterm ∨
        ∃ e, winner = RaceEvent.runResult (some e)) →
      spin exitWait (waitSignal winner) sErr cErr = ⟨true, none, none, cErr⟩) := by
  constructor
  · rintro (rfl | rfl) <;> rfl
  · rintro (rfl | ⟨e, rfl⟩) <;> rfl

/-- Witness for C5: an interrupt with hangup not ignored takes the graceful
path with the configured timeout. -/
theorem spin_race_decision_witness :
    spin 5 (waitSignal (RaceEvent.signal Sig.sigint)) (some "late") (some "ce") =
      ⟨false, some 5, some "late", none⟩ :=
  (spin_race_decision false 5 (RaceEvent.signal Sig.sigint) (some "late") (some "ce")
    (by decide)).1 (Or.inl rfl)

/-- C6: below the handler limit, `Handle` fails with the invalid-method
panic exactly when the method is not a non-empty string of uppercase ASCII
letters; on a valid method it delegates to the internal `handle`, which
performs exactly one registration. -/
theorem handle_method_validation (ab : Nat) (g : RouterGroup) (m rel : String)
    (hs : List Handler) (routes : RouteTable)
    (h : g.Handlers.length + hs.length < ab) :
    (g.Handle ab m rel hs routes =
        Except.error ("http method " ++ m ++ " is not valid") ↔
      upperLetterMatch m = false) ∧
    (upperLetterMatch m = true →
      g.Handle ab m rel hs routes = g.handle ab m rel hs routes ∧
      g.handle ab m rel hs routes =
        Except.ok (routes ++ [⟨m, g.calculateAbsolutePath rel, g.Handlers ++ hs⟩])) := by
  have hnot : ¬(g.Handlers.length + hs.length ≥ ab) := by omega
  cases hm : upperLetterMatch m
  · refine ⟨?_, ?_⟩
    · simp [RouterGroup.Handle, hm]
    · intro hmt
      simp [hm] at hmt
  · refine ⟨?_, fun _ => ⟨?_, ?_⟩⟩
    · simp [RouterGroup.Handle, RouterGroup.handle, RouterGroup.combineHandlers,
        Except.map, hm, hnot]
    · simp [RouterGroup.Handle, hm]
    · simp [RouterGroup.handle, RouterGroup.combineHandlers, Except.map, hnot]

/-- Witness for C6: `Handle` with method "GET" delegates and registers
exactly one route on a concrete group. -/
theorem handle_method_validation_witness :
    RouterGroup.Handle 63 ⟨[], "/", true⟩ "GET" "/x" [Handler.user 1] [] =
      RouterGroup.handle 63 ⟨[], "/", true⟩ "GET" "/x" [Handler.user 1] [] :=
  ((handle_method_validation 63 ⟨[], "/", true⟩ "GET" "/x" [Handler.user 1] []
    (by decide)).2 (by decide)).1

/-- C7: `StaticFile`, `Static` and `StaticFS` panic, before registering
anything, exactly when the relative path contains `:` or `*`; otherwise
(below the handler limit) each registers exactly the two methods GET and
HEAD for its mounted path. -/
theorem static_reserved_chars (ab : Nat) (g : RouterGroup) (rel fp root : String)
    (fs : FS) (routes : RouteTable) (h : g.Handlers.length + 1 < ab) :
    (rel.data.contains ':' ∨ rel.data.contains '*' →
      g.staticFile ab rel fp routes =
        Except.error "URL parameters can not be used when serving a static file" ∧
      g.staticFS ab rel fs routes =
        Except.error "URL parameters can not be used when serving a static folder" ∧
      g.static ab rel root routes =
        Except.error "URL parameters can not be used when serving a static folder") ∧
    (¬(rel.data.contains ':' ∨ rel.data.contains '*') →
      g.staticFile ab rel fp routes =
        Except.ok (routes ++
          [⟨"GET", g.calculateAbsolutePath rel, g.Handlers ++ [Handler.file fp]⟩,
           ⟨"HEAD", g.calculateAbsolutePath rel, g.Handlers ++ [Handler.file fp]⟩]) ∧
      g.staticFS ab rel fs routes =
        Except.ok (routes ++
          [⟨"GET", g.calculateAbsolutePath (goJoinS rel "/*filepath"),
             g.Handlers ++ [fs.NewRequestHandler]⟩,
           ⟨"HEAD", g.calculateAbsolutePath (goJoinS rel "/*filepath"),
             g.Handlers ++ [fs.NewRequestHandler]⟩]) ∧
      g.static ab rel root routes = g.staticFS ab rel ⟨root⟩ routes) := by
  have hnot : ¬(g.Handlers.length + 1 ≥ ab) := by omega
  constructor
  · intro hc
    have hmem : ':' ∈ rel.data ∨ '*' ∈ rel.data := by simpa using hc
    refine ⟨?_, ?_, ?_⟩ <;>
      rcases hmem with hm | hm <;>
        simp [RouterGroup.staticFile, RouterGroup.static, RouterGroup.staticFS, hm]
  · intro hc
    have hmem : ¬(':' ∈ rel.data ∨ '*' ∈ rel.data) := by simpa using hc
    have hA : ':' ∉ rel.data := (not_or.mp hmem).1
    have hB : '*' ∉ rel.data := (not_or.mp hmem).2
    refine ⟨?_, ?_, rfl⟩
    · simp [RouterGroup.staticFile, RouterGroup.GET, RouterGroup.HEAD,
        RouterGroup.handle, RouterGroup.combineHandlers, hA, hB, hnot, bind,
        Except.bind, Except.map]
    · simp [RouterGroup.staticFS, RouterGroup.GET, RouterGroup.HEAD,
        RouterGroup.handle, RouterGroup.combineHandlers, hA, hB, hnot, bind,
        Except.bind, Except.map]

/-- Witness for C7: a concrete clean relative path registers GET and HEAD
only. -/
theorem static_reserved_chars_witness :
    RouterGroup.staticFile 63 ⟨[], "/", true⟩ "/favicon.ico" "./f.ico" [] =
      Except.ok (([] : RouteTable) ++
        [⟨"GET", RouterGroup.calculateAbsolutePath ⟨[], "/", true⟩ "/favicon.ico",
           [] ++ [Handler.file "./f.ico"]⟩,
         ⟨"HEAD", RouterGroup.calculateAbsolutePath ⟨[], "/", true⟩ "/favicon.ico",
           [] ++ [Handler.file "./f.ico"]⟩]) :=
  ((static_reserved_chars 63 ⟨[], "/", true⟩ "/favicon.ico" "./f.ico" "r" ⟨"r"⟩ []
    (by decide)).2 (by decide)).1

/-- C8 counterexample: for the accepted relative path "/s/", `StaticFS`
mounts "/s/*filepath" (the canonical `path.Join` of "/s/" and
"/*filepath"), which differs from the string concatenation
"/s/" ++ "/*filepath" = "/s//*filepath". -/
theorem staticFS_concat_counterexample :
    RouterGroup.staticFS 63 ⟨[], "/", true⟩ "/s/" ⟨"r"⟩ [] =
      Except.ok
        [⟨"GET", "/s/*filepath", [Handler.fsHandler "r"]⟩,
         ⟨"HEAD", "/s/*filepath", [Handler.fsHandler "r"]⟩] ∧
    goJoinS "/s/" "/*filepath" = "/s/*filepath" ∧
    "/s/*filepath" ≠ "/s/" ++ "/*filepath" := by
  decide

/-- C8 amended: for every relative path accepted by `StaticFS` (below the
handler limit), the wildcard pattern mounted for GET and HEAD is
`path.Join(relativePath, "/*filepath")`, composed with the group's base
path; it equals the plain concatenation whenever the concatenation is
already in canonical form. -/
theorem staticFS_mount_path (ab : Nat) (g : RouterGroup) (rel : String) (fs : FS)
    (routes : RouteTable)
    (hc : ¬(rel.data.contains ':' ∨ rel.data.contains '*'))
    (h : g.Handlers.length + 1 < ab) :
    g.staticFS ab rel fs routes =
      Except.ok (routes ++
        [⟨"GET", joinPaths g.basePath (goJoinS rel "/*filepath"),
           g.Handlers ++ [fs.NewRequestHandler]⟩,
         ⟨"HEAD", joinPaths g.basePath (goJoinS rel "/*filepath"),
           g.Handlers ++ [fs.NewRequestHandler]⟩]) := by
  have hnot : ¬(g.Handlers.length + 1 ≥ ab) := by omega
  have hmem : ¬(':' ∈ rel.data ∨ '*' ∈ rel.data) := by simpa using hc
  have hA : ':' ∉ rel.data := (not_or.mp hmem).1
  have hB : '*' ∉ rel.data := (not_or.mp hmem).2
  simp [RouterGroup.staticFS, RouterGroup.GET, RouterGroup.HEAD, RouterGroup.handle,
    RouterGroup.combineHandlers, RouterGroup.calculateAbsolutePath, hA, hB, hnot, bind,
    Except.bind, Except.map]

/-- Witness for C8's amended statement at `rel = "/static"`, where the
canonical join and the concatenation agree. -/
theorem staticFS_mount_path_witness :
    RouterGroup.staticFS 63 ⟨[], "/", true⟩ "/static" ⟨"r"⟩ [] =
      Except.ok (([] : RouteTable) ++
        [⟨"GET", joinPaths "/" (goJoinS "/static" "/*filepath"),
           [] ++ [FS.NewRequestHandler ⟨"r"⟩]⟩,
         ⟨"HEAD", joinPaths "/" (goJoinS "/static" "/*filepath"),
           [] ++ [FS.NewRequestHandler ⟨"r"⟩]⟩]) :=
  staticFS_mount_path 63 ⟨[], "/", true⟩ "/static" ⟨"r"⟩ [] (by decide) (by decide)

end HertzStudy

